import Mathlib

/-!
# Orchid server bootstrap (`srv-shared/source/main.cpp`)

A shallow embedding of `orc::Main` and `main`: the identity import, the
fingerprint token, the reflexive-candidate scan that detects symmetric NAT,
the `look`/`move` reconciliation against the location registry, and the final
assembly of the node.  Calls into libraries and other translation units appear
as fields of an environment record; every observable step is recorded in a
trace of events.
-/

namespace orc

/-! ## Data -/

/-- Contents of a `std::string` or of an orchid buffer (`Bytes`, `Beam`,
`Strung`, `Builder`, `Subset`): one number per `char`. -/
abbrev Bytes := List Nat

/-- A string literal of the source, as its character codes. -/
def ascii (s : String) : Bytes := s.toList.map Char.toNat

/-- An orchid `Socket`, the key and value type of the reflexive map: a host
address (its octets) and a port.  The header that declares it is not part of
the sources at hand; its ordering is taken to be the lexicographic order on
(host, port), so that two keys are equivalent for `std::map` exactly when they
are equal. -/
structure Socket where
  host : List Nat
  port : Nat
deriving DecidableEq, Repr

/-- The parts of a `cricket::Candidate` that `Main` reads: `type()`,
`address()` (the observed address) and `related_address()`, the two addresses
already converted to `Socket`. -/
structure Candidate where
  type : Bytes
  address : Socket
  related_address : Socket
deriving DecidableEq, Repr

/-- A `webrtc::JsepSessionDescription` after `SdpDeserialize`: whether
`description()` is non-null, and one candidate collection per media section
(`candidates(i)` is null exactly when `i` is past the last section).  An entry
of a collection is what `at(i)` returns, `none` standing for a null pointer. -/
structure JsepSessionDescription where
  description : Bool
  candidates : List (List (Option Candidate))

/-- Handle of a parsed PKCS#12 container. -/
structure PKCS12 where
  id : Nat
deriving DecidableEq, Repr

/-- Handle of a private key. -/
structure EVP_PKEY where
  id : Nat
deriving DecidableEq, Repr

/-- Handle of a certificate. -/
structure X509 where
  id : Nat
deriving DecidableEq, Repr

/-- What can be thrown inside `Main`; every case is a `std::exception`. -/
inductive Error where
  /-- a failed `orc_assert` at the given source line -/
  | assert (line : Nat)
  /-- `po::store`, `po::notify` or `as<T>()` on a missing option -/
  | options (what : Bytes)
  /-- `load_string_file` on a file that cannot be read -/
  | file (path : Bytes)
  /-- a failure reported by a collaborator (transport, chain, egress, node) -/
  | external (what : Bytes)
deriving DecidableEq, Repr

/-- An observable step of a run, in program order. -/
inductive Event where
  /-- a line written to `std::cout` -/
  | cout (text : Bytes)
  /-- a line written to `std::cerr` -/
  | cerr (text : Bytes)
  /-- the labelled buffer lines `url = `, `tls = `, `gpg = ` on `std::cerr` -/
  | dump (label : Bytes) (value : Bytes)
  | v8Initialize
  | v8Dispose
  | v8ShutdownPlatform
  | Initialize
  | Certify
  | Fingerprint (key chain : Bytes)
  | Description (network : Option Bytes) (servers : List Bytes)
  | Latest
  | look (block : Nat) (contract : Bytes) (gas : Nat) (provider : Bytes)
  | move (sender password contract : Bytes) (gas : Nat) (url tls gpg : Bytes)
  | Cashier (personal password lottery : Bytes) (chainid : Nat) (recipient : Bytes)
  | CashierOpen (ws : Bytes)
  | Connect (ovpnfile username password : Bytes)
  | NodeRun (bind : Bytes) (port : Nat) (path key chain params : Bytes)
  /-- the handler of `main` printing `error.what()` -/
  | caught (e : Error)
deriving DecidableEq, Repr

deriving instance DecidableEq for Except

/-! ## Runs: a trace and a result or a thrown error -/

/-- A computation of `Main`: the events it produced and either its value or
the exception that ended it. -/
structure Run (α : Type) where
  trace : List Event
  result : Except Error α
deriving DecidableEq

namespace Run

/-- Sequencing: the second part runs only when the first returned. -/
def andThen {α β : Type} (x : Run α) (f : α → Run β) : Run β :=
  match x.result with
  | .ok a => ⟨x.trace ++ (f a).trace, (f a).result⟩
  | .error e => ⟨x.trace, .error e⟩

instance : Monad Run where
  pure a := ⟨[], .ok a⟩
  bind := andThen

/-- Record one event. -/
def emit (e : Event) : Run Unit := ⟨[e], .ok ()⟩

/-- Throw. -/
def raise {α : Type} (e : Error) : Run α := ⟨[], .error e⟩

/-- A call whose outcome the environment decides. -/
def lift {α : Type} (r : Except Error α) : Run α := ⟨[], r⟩

end Run

open Run

/-- Macro `orc_assert(cond)` at a source line: throws when `cond` is false. -/
def orc_assert (line : Nat) (cond : Bool) : Run Unit :=
  if cond then pure () else raise (.assert line)

/-- An `orc_assert` on a pointer: the pointee when non-null, a throw otherwise. -/
def orc_assert_some {α : Type} (line : Nat) (p : Option α) : Run α :=
  match p with
  | some a => pure a
  | none => raise (.assert line)

/-- A `load_string_file`: the contents, or a throw naming the path. -/
def loaded (path : Bytes) (contents : Option Bytes) : Run Bytes :=
  match contents with
  | some s => pure s
  | none => raise (.file path)

/-! ## The reflexive map and the candidate scan (lines 302-319) -/

/-- The `std::map<Socket, Socket> reflexive`, as its entries in insertion order. -/
abbrev Reflexive := List (Socket × Socket)

/-- Member `std::map::emplace`: when an entry with the key exists the map is
left alone and `.second` is false; otherwise the entry is added. -/
def emplace (m : Reflexive) (k v : Socket) : Reflexive × Bool :=
  if m.any (fun e => e.1 == k) then (m, false) else (m ++ [(k, v)], true)

/-- The text printed when the scan gives up. -/
def symmetricMessage : Bytes := ascii "server must not use symmetric NAT"

/-- The inner loop (lines 308-318) over one candidate collection.  The value
`none` is the early `return 1`, `some reflexive` the map after the section. -/
def scanCollection : List (Option Candidate) → Reflexive → Run (Option Reflexive)
  | [], reflexive => pure (some reflexive)
  | ice :: rest, reflexive =>
    match ice with
    | none => raise (.assert 310)
    | some candidate =>
      if candidate.type ≠ ascii "stun" then
        scanCollection rest reflexive
      else
        match emplace reflexive candidate.related_address candidate.address with
        | (reflexive, true) => scanCollection rest reflexive
        | (_, false) => ⟨[.cerr symmetricMessage], .ok none⟩

/-- The outer loop (lines 304-319) over the media sections. -/
def scanSections : List (List (Option Candidate)) → Reflexive → Run (Option Reflexive)
  | [], reflexive => pure (some reflexive)
  | ices :: rest, reflexive =>
    (scanCollection ices reflexive).andThen fun
      | none => pure none
      | some reflexive => scanSections rest reflexive

/-- Lines 302-319: the scan from an empty map.  The value is the verdict:
`false` is the `return 1` of line 316, `true` is falling out of the loops. -/
def ReflexiveLoop (jsep : JsepSessionDescription) : Run Bool :=
  (scanSections jsep.candidates []).andThen fun r => pure r.isSome

/-- A session description whose collections hold the given candidates. -/
def sessionOf (sections : List (List Candidate)) : JsepSessionDescription :=
  ⟨true, sections.map (List.map some)⟩

/-- The related addresses of the server-reflexive candidates, in order. -/
def stunKeys (cs : List Candidate) : List Socket :=
  (cs.filter (fun c => c.type = ascii "stun")).map Candidate.related_address

/-- The (related, observed) pairs of the server-reflexive candidates, in order. -/
def stunPairs (cs : List Candidate) : List (Socket × Socket) :=
  (cs.filter (fun c => c.type = ascii "stun")).map fun c => (c.related_address, c.address)

/-- Two candidates of type "stun", at different positions, carry the same
related address. -/
def RepeatedRelated (cs : List Candidate) : Prop :=
  ∃ (i j : Nat) (a b : Candidate), i < j ∧ cs[i]? = some a ∧ cs[j]? = some b ∧
    a.type = ascii "stun" ∧ b.type = ascii "stun" ∧
    a.related_address = b.related_address

/-- Two candidates of type "stun", at different positions, carry different
related addresses and the same observed address. -/
def ObservedCollision (cs : List Candidate) : Prop :=
  ∃ (i j : Nat) (a b : Candidate), i < j ∧ cs[i]? = some a ∧ cs[j]? = some b ∧
    a.type = ascii "stun" ∧ b.type = ascii "stun" ∧
    a.related_address ≠ b.related_address ∧ a.address = b.address

/-- Among the candidates of type "stun", each related address goes with one
observed address and each observed address with one related address. -/
def OneToOne (cs : List Candidate) : Prop :=
  ∀ a ∈ cs, ∀ b ∈ cs, a.type = ascii "stun" → b.type = ascii "stun" →
    (a.related_address = b.related_address ↔ a.address = b.address)

/-- The keys that a scan adds are all new: they differ from one another and
from the keys already in the map. -/
def Fresh (r : Reflexive) (ps : List (Socket × Socket)) : Prop :=
  (r.map Prod.fst ++ ps.map Prod.fst).Nodup

/-! ## Identity (lines 186-249) -/

/-- The parsed command line and configuration file (`po::variables_map` after
`po::notify`); options with a default value are always present. -/
structure Args where
  help : Bool
  lottery : Bytes
  location : Bytes
  personal : Option Bytes
  password : Bytes
  recipient : Option Bytes
  provider : Option Bytes
  chainid : Nat
  rpc : Bytes
  ws : Bytes
  stun : Bytes
  host : Option Bytes
  bind : Bytes
  port : Nat
  path : Bytes
  tls : Option Bytes
  dh : Option Bytes
  network : Option Bytes
  currency : Bytes
  price : Bytes
  ovpn_file : Option Bytes
  ovpn_user : Bytes
  ovpn_pass : Bytes

/-- The chain endpoint over a ledger state `σ`: `Latest`, the read selector
`look` (block, contract, gas, provider) and the write selector `move` (sender,
password, contract, gas, then the three payload buffers).  A read leaves the
ledger alone; an accepted write yields the next ledger, a refused one throws. -/
structure Endpoint (σ : Type) where
  Latest : σ → Except Error Nat
  look : σ → Nat → Bytes → Nat → Bytes → Except Error (Nat × Bytes × Bytes × Bytes)
  move : σ → Bytes → Bytes → Bytes → Nat → Bytes → Bytes → Bytes → Except Error σ

/-- Everything `Main` obtains from outside its own text: the parsed options,
the file system, the TLS and WebRTC libraries, the chain and the collaborators
it starts. -/
structure Env (σ : Type) where
  /-- outcome of `po::store` and `po::notify` -/
  args : Except Error Args
  /-- the text of the options description printed for `--help` -/
  usage : Bytes
  /-- `boost::filesystem::load_string_file`, `none` when it throws -/
  load_string_file : Bytes → Option Bytes
  /-- `Certify()->ToPEM()`: private key and certificate -/
  Certify : Bytes × Bytes
  /-- whether `BIO_new_mem_buf` returns a buffer -/
  BIO_new_mem_buf : Bytes → Bool
  d2i_PKCS12_bio : Bytes → Option PKCS12
  /-- `PKCS12_parse` with a password: `none` when it returns 0, otherwise the
  three out-pointers, each possibly null -/
  PKCS12_parse : PKCS12 → Bytes → Option (Option EVP_PKEY × Option X509 × Option (List X509))
  /-- the text left in the memory BIO, `none` when the call returns 0 -/
  PEM_write_bio_PrivateKey : EVP_PKEY → Option Bytes
  /-- the text left in the memory BIO, `none` when the call returns 0 -/
  PEM_write_bio_X509 : X509 → Option Bytes
  /-- algorithm and digest of `SSLFingerprint::CreateFromCertificate` on the
  certificate made from the key and chain text -/
  fingerprint : Bytes → Bytes → Bytes × Bytes
  /-- the bytes of the buffer `Object(p)` built from the C string at `p` -/
  Object : Bytes → Bytes
  host_name : Bytes
  /-- the offer produced by `Wait(Description(origin, servers))` -/
  Description : Option Bytes → List Bytes → Except Error Bytes
  Filter : Bool → Bytes → Bytes
  SdpDeserialize : Bytes → Option JsepSessionDescription
  Locator_Parse : Bytes → Except Error Bytes
  endpoint : Endpoint σ
  /-- the ledger when `Main` starts -/
  chain : σ
  /-- the number read from the price text -/
  Float : Bytes → ℚ
  CashierOpen : Bytes → Except Error Unit
  Connect : Bytes → Bytes → Bytes → Except Error Unit
  NodeRun : Except Error Unit

/-- The loop of lines 243-248: the PEM text of each certificate of the stack,
in index order, appended to `chain`. -/
def writeStack {σ : Type} (env : Env σ) : List X509 → Bytes → Run Bytes
  | [], chain => pure chain
  | x :: rest, chain =>
    (orc_assert_some 246 (env.PEM_write_bio_X509 x)).andThen fun pem =>
      writeStack env rest (chain ++ pem)

/-- Lines 199-248, the branch taken when `--tls` names a PKCS#12 file: the
value is (key, chain). -/
def ImportIdentity {σ : Type} (env : Env σ) (path : Bytes) : Run (Bytes × Bytes) := do
  let str ← loaded path (env.load_string_file path)
  orc_assert 204 (env.BIO_new_mem_buf str)
  let p12 ← orc_assert_some 209 (env.d2i_PKCS12_bio str)
  let parsed ← orc_assert_some 219 (env.PKCS12_parse p12 [])
  let pkey ← orc_assert_some 228 parsed.1
  let x509 ← orc_assert_some 229 parsed.2.1
  let key ← orc_assert_some 233 (env.PEM_write_bio_PrivateKey pkey)
  let chain ← orc_assert_some 239 (env.PEM_write_bio_X509 x509)
  let chain ← writeStack env (parsed.2.2.getD []) chain
  pure (key, chain)

/-- Lines 186-249: a fresh self-signed identity, printed to `std::cerr`, or the
imported one. -/
def Identity {σ : Type} (env : Env σ) (args : Args) : Run (Bytes × Bytes) :=
  match args.tls with
  | none => do
    emit .Certify
    emit (.cerr env.Certify.1)
    emit (.cerr env.Certify.2)
    pure env.Certify
  | some path => ImportIdentity env path

/-! ## The advertised record (lines 260-280) -/

/-- Function `std::regex_replace(s, re, fmt)` for a pattern `re` that is one
literal character: every occurrence of the character is replaced by `fmt`, the
other characters are copied in order. -/
def regex_replace (s : Bytes) (re : Nat) (fmt : Bytes) : Bytes :=
  s.flatMap fun c => if c = re then fmt else [c]

/-- The pattern of line 274, `std::regex re("-")`. -/
def re : Nat := '-'.toNat

/-- Member `std::string::c_str()` as the callee sees it: a pointer to
characters that end at the first NUL. -/
def c_str (s : Bytes) : Bytes := s.takeWhile fun c => c ≠ 0

/-- Buffer `Subset(data, size)`: the first `size` bytes at `data`. -/
def Subset (data : Bytes) (size : Nat) : Bytes := data.take size

/-- The name handed to `Object` on line 275. -/
def tlsAlgorithm (algorithm : Bytes) : Bytes := c_str (regex_replace algorithm re [])

/-- Lines 273-276: the `Builder tls` after its two `+=`.  The buffer type
`Object` is declared in a header that is not among the sources, so what it
holds for a given C string is left to the argument `Object`. -/
def tlsToken (Object : Bytes → Bytes) (algorithm digest : Bytes) : Bytes :=
  [] ++ Object (tlsAlgorithm algorithm) ++ Subset digest digest.length

/-- Function `std::to_string` on an unsigned number. -/
def to_string (n : Nat) : Bytes := ascii (toString n)

/-- Line 270: the `Strung url`. -/
def serviceUrl (host : Bytes) (port : Nat) (path : Bytes) : Bytes :=
  ascii "https://" ++ host ++ ascii ":" ++ to_string port ++ path

/-- Line 271: `Bytes gpg;`, default-constructed and never assigned. -/
def gpg : Bytes := []

/-- The built-in Diffie-Hellman parameters of lines 173-180. -/
def defaultParams : Bytes :=
  ascii "-----BEGIN DH PARAMETERS-----\n" ++
  ascii "MIIBCAKCAQEA///////////JD9qiIWjCNMTGYouA3BzRKQJOCIpnzHQCC76mOxOb\n" ++
  ascii "IlFKCHmONATd75UZs806QxswKwpt8l8UN0/hNW1tUcJF5IW1dmJefsb0TELppjft\n" ++
  ascii "awv/XLb0Brft7jhr+1qJn6WunyQRfEsf5kkoZlHs5Fs9wgB8uKFjvwWY2kg2HFXT\n" ++
  ascii "mmkWP6j9JM9fg2VdI9yjrZYcYvNWIIVSu57VKQdwlpZtZww1Tkq8mATxdGwIyhgh\n" ++
  ascii "fDKQXkYuNs474553LBgOhgObJ4Oi7Aeij7XFXfBvTFLJ3ivL9pVYFxg5lUl86pVq\n" ++
  ascii "5RXSJhiY+gUQFXKOWoqsqmj//////////wIBAg==\n" ++
  ascii "-----END DH PARAMETERS-----\n"

/-- What lines 163-287 leave for the rest of `Main`. -/
structure Context where
  ice : List Bytes
  params : Bytes
  key : Bytes
  chain : Bytes
  url : Bytes
  tls : Bytes
  recipient : Bytes
  origin : Option Bytes
deriving DecidableEq

/-- Lines 163-287: initialisation, DH parameters, identity, fingerprint, the
record to advertise, and the origin. -/
def Prepare {σ : Type} (env : Env σ) (args : Args) : Run Context := do
  emit .Initialize
  let params ← match args.dh with
    | none => pure defaultParams
    | some file => loaded file (env.load_string_file file)
  let identity ← Identity env args
  emit (.Fingerprint identity.1 identity.2)
  let fingerprint := env.fingerprint identity.1 identity.2
  let host := match args.host with
    | some host => host
    | none => env.host_name
  let url := serviceUrl host args.port args.path
  let tls := tlsToken env.Object fingerprint.1 fingerprint.2
  emit (.dump (ascii "url") url)
  emit (.dump (ascii "tls") tls)
  emit (.dump (ascii "gpg") gpg)
  let recipient := match args.recipient with
    | none => ascii "0x0000000000000000000000000000000000000000"
    | some recipient => recipient
  pure ⟨[ascii "stun:" ++ args.stun], params, identity.1, identity.2, url, tls, recipient,
    args.network⟩

/-! ## The topology probe (lines 290-320) -/

/-- The two reflectors of line 291. -/
def reflectors : List Bytes :=
  [ascii "stun:stun1.l.google.com:19302", ascii "stun:stun2.l.google.com:19302"]

/-- Lines 290-320.  The value `false` is the `return 1` of line 316. -/
def ProbeTopology {σ : Type} (env : Env σ) (origin : Option Bytes) : Run Bool := do
  emit (.Description origin reflectors)
  let offer ← lift (env.Description origin reflectors)
  emit (.cout [])
  emit (.cout (env.Filter false offer))
  let jsep ← orc_assert_some 297 (env.SdpDeserialize offer)
  orc_assert 300 jsep.description
  ReflexiveLoop jsep

/-! ## Reconciliation (lines 329-336) -/

/-- Lines 329-336, the task run when `--provider` is given: read the block,
`look` up the record, and `move` when the three fields differ from
`(url, tls, gpg)`.  The value is the ledger afterwards. -/
def Reconcile {σ : Type} (endpoint : Endpoint σ) (chain : σ)
    (location provider password url tls gpg : Bytes) : Run σ := do
  emit .Latest
  let latest ← lift (endpoint.Latest chain)
  emit (.look latest location 90000 provider)
  let record ← lift (endpoint.look chain latest location 90000 provider)
  if record.2 ≠ (url, tls, gpg) then do
    emit (.move provider password location 3000000 url tls [])
    lift (endpoint.move chain provider password location 3000000 url tls [])
  else
    pure chain

/-! ## Assembly (lines 323-372) -/

/-- Lines 339-352: the cashier, absent when the price is zero. -/
def OpenCashier {σ : Type} (env : Env σ) (args : Args) (ctx : Context) : Run Unit :=
  if env.Float args.price / (1024 * 1024 * 1024) = 0 then
    pure ()
  else do
    let personal ← match args.personal with
      | some personal => pure personal
      | none => raise (.options (ascii "personal"))
    emit (.Cashier personal args.password args.lottery args.chainid ctx.recipient)
    let ws ← lift (env.Locator_Parse args.ws)
    emit (.CashierOpen ws)
    lift (env.CashierOpen ws)

/-- Lines 354-368: the egress, which needs `--ovpn-file`. -/
def OpenEgress {σ : Type} (env : Env σ) (args : Args) : Run Unit :=
  match args.ovpn_file with
  | some file => do
    let ovpnfile ← loaded file (env.load_string_file file)
    emit (.Connect ovpnfile args.ovpn_user args.ovpn_pass)
    lift (env.Connect ovpnfile args.ovpn_user args.ovpn_pass)
  | none => raise (.assert 367)

/-- Lines 323-372: endpoint, reconciliation, cashier, egress and the node. -/
def Serve {σ : Type} (env : Env σ) (args : Args) (ctx : Context) : Run Int := do
  let _rpc ← lift (env.Locator_Parse args.rpc)
  let _chain ← match args.provider with
    | some provider =>
      Reconcile env.endpoint env.chain args.location provider args.password ctx.url ctx.tls gpg
    | none => pure env.chain
  OpenCashier env args ctx
  OpenEgress env args
  emit (.NodeRun args.bind args.port args.path ctx.key ctx.chain ctx.params)
  lift env.NodeRun
  pure 0

/-! ## `Main` and `main` -/

/-- Function `orc::Main` (lines 80-373), from the parsed options on. -/
def Main {σ : Type} (env : Env σ) : Run Int := do
  let args ← lift env.args
  if args.help then do
    emit (.cout env.usage)
    pure 0
  else do
    let ctx ← Prepare env args
    let compatible ← ProbeTopology env ctx.origin
    if compatible then Serve env args ctx else pure 1

/-- What the process leaves behind: the events and the exit status. -/
structure Exit where
  trace : List Event
  status : Int

/-- Function `main` (lines 377-393): V8 set-up, `orc::Main`, the two scope
guards, and the handler that prints a caught exception and returns 1. -/
def main {σ : Type} (env : Env σ) : Exit :=
  let trace := [Event.v8Initialize] ++ (Main env).trace ++ [.v8Dispose, .v8ShutdownPlatform]
  match (Main env).result with
  | .ok status => ⟨trace, status⟩
  | .error e => ⟨trace ++ [.caught e], 1⟩

/-- The ways a PKCS#12 import fails after the file is read: the container
bytes do not decode, or the container does not open under the empty passphrase
that `Main` uses, or it opens without a private key, or without a leaf
certificate. -/
def ImportFails {σ : Type} (env : Env σ) (path : Bytes) : Prop :=
  ∃ str, env.load_string_file path = some str ∧
    (env.d2i_PKCS12_bio str = none ∨
      ∃ p12, env.d2i_PKCS12_bio str = some p12 ∧
        (env.PKCS12_parse p12 [] = none ∨
          ∃ pkey x509 stack, env.PKCS12_parse p12 [] = some (pkey, x509, stack) ∧
            (pkey = none ∨ x509 = none)))

/-! ## A registry and sample environments -/

/-- Modelled from the spec: the location registry behind `look` and `move` is
a contract outside the sources.  It keeps, per (location, provider), the tuple
last written; `look` returns the stored tuple, and a `move`, always accepted,
replaces the sender's tuple under that location by its payload. -/
structure Registry where
  height : Nat
  record : Bytes → Bytes → Nat × Bytes × Bytes × Bytes

/-- The endpoint of the registry model. -/
def registry : Endpoint Registry where
  Latest s := .ok s.height
  look s _ location _ provider := .ok (s.record location provider)
  move s sender _ location _ url tls gpg :=
    .ok ⟨s.height + 1, fun l p =>
      if l = location ∧ p = sender then (s.height + 1, url, tls, gpg) else s.record l p⟩

/-- The `move` events of a trace: the write calls issued. -/
def writes (trace : List Event) : List Event :=
  trace.filter fun e => match e with
    | .move .. => true
    | _ => false

/-- Events of the steps that follow the identity: fingerprint, probe, chain
calls, settlement, egress and the node run-loop. -/
def Event.afterIdentity : Event → Bool
  | .Fingerprint .. => true
  | .Description .. => true
  | .Latest => true
  | .look .. => true
  | .move .. => true
  | .Cashier .. => true
  | .CashierOpen .. => true
  | .Connect .. => true
  | .NodeRun .. => true
  | _ => false

/-- Events of the steps that follow the probe: chain calls, settlement, egress
and the node run-loop. -/
def Event.afterProbe : Event → Bool
  | .Latest => true
  | .look .. => true
  | .move .. => true
  | .Cashier .. => true
  | .CashierOpen .. => true
  | .Connect .. => true
  | .NodeRun .. => true
  | _ => false

/-- A run none of whose events belongs to a step after the probe. -/
def Quiet {α : Type} (x : Run α) : Prop := ∀ e ∈ x.trace, e.afterProbe = false

/-- Running the reconciliation twice in sequence with the same desired value,
the second time on the ledger the first one left. -/
def ReconcileTwice {σ : Type} (endpoint : Endpoint σ) (chain : σ)
    (location provider password url tls gpg : Bytes) : Run σ :=
  (Reconcile endpoint chain location provider password url tls gpg).andThen fun chain =>
    Reconcile endpoint chain location provider password url tls gpg

/-- A registry in which the given provider already advertises the given url
and tls token, with an empty auxiliary key, under the given location. -/
def publishedRegistry (location provider url tls : Bytes) : Registry :=
  ⟨7, fun l p => if l = location ∧ p = provider then (5, url, tls, []) else (0, [], [], [])⟩

/-- A registry with no record anywhere. -/
def emptyRegistry : Registry := ⟨7, fun _ _ => (0, [], [], [])⟩

/-- Options of a provider started with an OpenVPN profile and the defaults. -/
def sampleArgs : Args where
  help := false
  lottery := ascii "0xb02396f06CC894834b7934ecF8c8E5Ab5C1d12F1"
  location := ascii "0xEF7bc12e0F6B02fE2cb86Aa659FdC3EBB727E0eD"
  personal := some (ascii "0x01")
  password := []
  recipient := none
  provider := some (ascii "0x02")
  chainid := 1
  rpc := ascii "http://127.0.0.1:8545/"
  ws := ascii "ws://127.0.0.1:8546/"
  stun := ascii "stun.l.google.com:19302"
  host := some (ascii "example.org")
  bind := ascii "0.0.0.0"
  port := 8443
  path := ascii "/"
  tls := none
  dh := none
  network := none
  currency := ascii "USD"
  price := ascii "0.03"
  ovpn_file := some (ascii "vpn.ovpn")
  ovpn_user := []
  ovpn_pass := []

/-- A socket on host 10.0.0.`n`. -/
def sock (n port : Nat) : Socket := ⟨[10, 0, 0, n], port⟩

/-- A server-reflexive candidate. -/
def stun (related observed : Socket) : Candidate := ⟨ascii "stun", observed, related⟩

/-- A host candidate. -/
def local_ (address : Socket) : Candidate := ⟨ascii "local", address, ⟨[], 0⟩⟩

/-- The context that `Prepare` reaches in `sampleEnv sampleArgs`. -/
def sampleContext : Context where
  ice := [ascii "stun:stun.l.google.com:19302"]
  params := defaultParams
  key := ascii "KEY"
  chain := ascii "CERT"
  url := ascii "https://example.org:8443/"
  tls := ascii "sha256" ++ [1, 2, 3]
  recipient := ascii "0x0000000000000000000000000000000000000000"
  origin := none

/-- An environment in which every outside call succeeds: every file can be
read (its contents are its own path), an `Object` holds the characters of its
C string, the offer carries the given candidate sections, every container decodes, and `parse` is what `PKCS12_parse` says of
it; the chain is the registry model, empty at the start. -/
def sampleEnv (args : Args) (sections : List (List Candidate))
    (parse : Option (Option EVP_PKEY × Option X509 × Option (List X509))) : Env Registry where
  args := .ok args
  usage := ascii "usage"
  load_string_file path := some path
  Certify := (ascii "KEY", ascii "CERT")
  BIO_new_mem_buf _ := true
  d2i_PKCS12_bio _ := some ⟨0⟩
  PKCS12_parse _ _ := parse
  PEM_write_bio_PrivateKey k := some (ascii "K" ++ [k.id])
  PEM_write_bio_X509 x := some (ascii "X" ++ [x.id])
  fingerprint _ _ := (ascii "sha-256", [1, 2, 3])
  Object name := name
  host_name := ascii "localhost"
  Description _ _ := .ok (ascii "v=0")
  Filter _ offer := offer
  SdpDeserialize _ := some (sessionOf sections)
  Locator_Parse url := .ok url
  endpoint := registry
  chain := emptyRegistry
  Float _ := 3 / 100
  CashierOpen _ := .ok ()
  Connect _ _ _ := .ok ()
  NodeRun := .ok ()

set_option maxRecDepth 100000

/-! ## Lemmas on the scan -/

theorem emplace_eq (m : Reflexive) (k v : Socket) :
    emplace m k v =
      if k ∈ m.map Prod.fst then (m, false) else (m ++ [(k, v)], true) := by
  unfold emplace
  have h : (m.any fun e => e.1 == k) = true ↔ k ∈ m.map Prod.fst := by
    simp only [List.any_eq_true, beq_iff_eq, List.mem_map]
  by_cases hk : k ∈ m.map Prod.fst
  · rw [if_pos (h.mpr hk), if_pos hk]
  · rw [if_neg (fun hh => hk (h.mp hh)), if_neg hk]

theorem stunKeys_eq_map_fst (cs : List Candidate) :
    stunKeys cs = (stunPairs cs).map Prod.fst := by
  simp [stunKeys, stunPairs, List.map_map, Function.comp_def]

theorem stunPairs_append (a b : List Candidate) :
    stunPairs (a ++ b) = stunPairs a ++ stunPairs b := by
  simp [stunPairs]

theorem stunPairs_cons_stun (c : Candidate) (cs : List Candidate)
    (h : c.type = ascii "stun") :
    stunPairs (c :: cs) = (c.related_address, c.address) :: stunPairs cs := by
  simp [stunPairs, h]

theorem stunPairs_cons_other (c : Candidate) (cs : List Candidate)
    (h : c.type ≠ ascii "stun") :
    stunPairs (c :: cs) = stunPairs cs := by
  simp [stunPairs, h]

theorem scanCollection_fresh (cs : List Candidate) (r : Reflexive)
    (hr : (r.map Prod.fst).Nodup) (h : Fresh r (stunPairs cs)) :
    scanCollection (cs.map some) r = ⟨[], .ok (some (r ++ stunPairs cs))⟩ := by
  induction cs generalizing r with
  | nil => simp [scanCollection, stunPairs]; rfl
  | cons c cs ih =>
    by_cases hc : c.type = ascii "stun"
    · rw [stunPairs_cons_stun c cs hc] at h ⊢
      unfold Fresh at h
      have hk : c.related_address ∉ r.map Prod.fst := by
        intro hmem
        rw [List.nodup_append] at h
        exact h.2.2 hmem (by simp)
      simp only [List.map_cons, scanCollection, hc, ne_eq, not_true_eq_false, if_false,
        emplace_eq, if_neg hk]
      rw [ih (r ++ [(c.related_address, c.address)])]
      · simp
      · simpa [List.nodup_append] using
          (by
            rw [List.nodup_append] at h
            exact ⟨h.1, hk⟩ : (r.map Prod.fst).Nodup ∧ c.related_address ∉ r.map Prod.fst)
      · unfold Fresh
        simpa [List.append_assoc] using h
    · rw [stunPairs_cons_other c cs hc] at h ⊢
      simp only [List.map_cons, scanCollection, hc, ne_eq, not_false_eq_true, if_true]
      exact ih r hr h

theorem fresh_snoc (r : Reflexive) (p : Socket × Socket) (ps : List (Socket × Socket)) :
    Fresh (r ++ [p]) ps ↔ Fresh r (p :: ps) := by
  unfold Fresh
  simp [List.append_assoc]

theorem fresh_append (r : Reflexive) (ps qs : List (Socket × Socket)) :
    Fresh (r ++ ps) qs ↔ Fresh r (ps ++ qs) := by
  unfold Fresh
  simp [List.append_assoc]

theorem fresh_left (r : Reflexive) (ps qs : List (Socket × Socket))
    (h : Fresh r (ps ++ qs)) : Fresh r ps := by
  unfold Fresh at h ⊢
  rw [List.map_append, ← List.append_assoc] at h
  exact (List.nodup_append.mp h).1

theorem fresh_keys (r : Reflexive) (ps : List (Socket × Socket)) (h : Fresh r ps) :
    ((r ++ ps).map Prod.fst).Nodup := by
  unfold Fresh at h
  simpa using h

theorem scanCollection_clash (cs : List Candidate) (r : Reflexive)
    (hr : (r.map Prod.fst).Nodup) (h : ¬ Fresh r (stunPairs cs)) :
    scanCollection (cs.map some) r = ⟨[.cerr symmetricMessage], .ok none⟩ := by
  induction cs generalizing r with
  | nil =>
    exfalso
    apply h
    unfold Fresh
    simpa [stunPairs] using hr
  | cons c cs ih =>
    by_cases hc : c.type = ascii "stun"
    · rw [stunPairs_cons_stun c cs hc] at h
      by_cases hk : c.related_address ∈ r.map Prod.fst
      · simp only [List.map_cons, scanCollection, hc, ne_eq, not_true_eq_false, if_false,
          emplace_eq, if_pos hk]
      · simp only [List.map_cons, scanCollection, hc, ne_eq, not_true_eq_false, if_false,
          emplace_eq, if_neg hk]
        apply ih
        · have : Fresh r [(c.related_address, c.address)] := by
            unfold Fresh
            rw [List.nodup_append]
            refine ⟨hr, by simp, ?_⟩
            intro a ha hb
            simp at hb
            subst hb
            exact hk ha
          exact fresh_keys r _ this
        · rw [fresh_snoc]
          exact h
    · rw [stunPairs_cons_other c cs hc] at h
      simp only [List.map_cons, scanCollection, hc, ne_eq, not_false_eq_true, if_true]
      exact ih r hr h

theorem scanSections_fresh (secs : List (List Candidate)) (r : Reflexive)
    (hr : (r.map Prod.fst).Nodup) (h : Fresh r (stunPairs secs.flatten)) :
    scanSections (secs.map (List.map some)) r
      = ⟨[], .ok (some (r ++ stunPairs secs.flatten))⟩ := by
  induction secs generalizing r with
  | nil => simp [scanSections, stunPairs]; rfl
  | cons sec secs ih =>
    rw [List.flatten_cons, stunPairs_append] at h ⊢
    have h1 := fresh_left r _ _ h
    simp only [List.map_cons, scanSections, scanCollection_fresh sec r hr h1, Run.andThen]
    rw [ih (r ++ stunPairs sec) (fresh_keys r _ h1) ((fresh_append r _ _).mpr h)]
    simp

theorem scanSections_clash (secs : List (List Candidate)) (r : Reflexive)
    (hr : (r.map Prod.fst).Nodup) (h : ¬ Fresh r (stunPairs secs.flatten)) :
    scanSections (secs.map (List.map some)) r
      = ⟨[.cerr symmetricMessage], .ok none⟩ := by
  induction secs generalizing r with
  | nil =>
    exfalso
    apply h
    unfold Fresh
    simpa [stunPairs] using hr
  | cons sec secs ih =>
    rw [List.flatten_cons, stunPairs_append] at h
    by_cases h1 : Fresh r (stunPairs sec)
    · simp only [List.map_cons, scanSections, scanCollection_fresh sec r hr h1, Run.andThen]
      rw [ih (r ++ stunPairs sec) (fresh_keys r _ h1)
        (fun hh => h ((fresh_append r _ _).mp hh))]
      simp
    · simp only [List.map_cons, scanSections, scanCollection_clash sec r hr h1, Run.andThen]
      rfl

/-- The scan of a list of sections, decided by the related addresses alone. -/
theorem ReflexiveLoop_eq (secs : List (List Candidate)) :
    ReflexiveLoop (sessionOf secs) =
      if (stunKeys secs.flatten).Nodup then ⟨[], .ok true⟩
      else ⟨[.cerr symmetricMessage], .ok false⟩ := by
  have hf : Fresh [] (stunPairs secs.flatten) ↔ (stunKeys secs.flatten).Nodup := by
    unfold Fresh
    rw [stunKeys_eq_map_fst]
    simp
  unfold ReflexiveLoop sessionOf
  by_cases h : (stunKeys secs.flatten).Nodup
  · rw [if_pos h, scanSections_fresh secs [] (by simp) (hf.mpr h)]
    rfl
  · rw [if_neg h, scanSections_clash secs [] (by simp) (fun hh => h (hf.mp hh))]
    rfl

/-- A repeated related address among the "stun" candidates is a failure of
`Nodup` on the key list. -/
theorem repeatedRelated_iff (cs : List Candidate) :
    RepeatedRelated cs ↔ ¬ (stunKeys cs).Nodup := by
  unfold RepeatedRelated stunKeys List.Nodup
  rw [List.pairwise_map, List.pairwise_filter, List.pairwise_iff_getElem]
  constructor
  · rintro ⟨i, j, a, b, hij, ha, hb, hta, htb, hab⟩ hall
    obtain ⟨hi, rfl⟩ := List.getElem?_eq_some_iff.mp ha
    obtain ⟨hj, rfl⟩ := List.getElem?_eq_some_iff.mp hb
    exact hall i j hi hj hij (by simpa using hta) (by simpa using htb) hab
  · intro h
    push_neg at h
    obtain ⟨i, j, hi, hj, hij, hta, htb, hab⟩ := h
    exact ⟨i, j, cs[i], cs[j], hij, List.getElem?_eq_getElem hi, List.getElem?_eq_getElem hj,
      by simpa using hta, by simpa using htb, hab⟩

theorem stunKeys_append (a b : List Candidate) :
    stunKeys (a ++ b) = stunKeys a ++ stunKeys b := by
  simp [stunKeys]

theorem stunKeys_flatten_filter (secs : List (List Candidate)) :
    stunKeys (secs.map (List.filter fun c => c.type = ascii "stun")).flatten
      = stunKeys secs.flatten := by
  induction secs with
  | nil => rfl
  | cons sec secs ih =>
    simp only [List.map_cons, List.flatten_cons, stunKeys_append, ih]
    congr 1
    simp [stunKeys, List.filter_filter]

theorem stunKeys_flatten_readdress (f : Candidate → Socket) (secs : List (List Candidate)) :
    stunKeys (secs.map (List.map fun c => { c with address := f c })).flatten
      = stunKeys secs.flatten := by
  induction secs with
  | nil => rfl
  | cons sec secs ih =>
    simp only [List.map_cons, List.flatten_cons, stunKeys_append, ih]
    congr 1
    simp [stunKeys, List.filter_map, List.map_map, Function.comp_def]

/-! ## The claims on the topology probe -/

/-- C10: for every candidate list the scan always returns a verdict; it is
`false` exactly when two candidates of type "stun" at different positions
carry the same related address, and `true` otherwise; dropping every candidate
of another type, or rewriting the observed addresses in any way, changes
neither the verdict nor the output. -/
theorem reflexive_loop_exact_rule (sections : List (List Candidate)) :
    ((ReflexiveLoop (sessionOf sections)).result = .ok false
        ↔ RepeatedRelated sections.flatten)
    ∧ ((ReflexiveLoop (sessionOf sections)).result = .ok true
        ↔ ¬ RepeatedRelated sections.flatten)
    ∧ ReflexiveLoop (sessionOf (sections.map (List.filter fun c => c.type = ascii "stun")))
        = ReflexiveLoop (sessionOf sections)
    ∧ ∀ f : Candidate → Socket,
        ReflexiveLoop (sessionOf (sections.map (List.map fun c => { c with address := f c })))
          = ReflexiveLoop (sessionOf sections) := by
  refine ⟨?_, ?_, ?_, ?_⟩
  · rw [ReflexiveLoop_eq, repeatedRelated_iff]
    by_cases h : (stunKeys sections.flatten).Nodup
    · simp [h]
    · simp [h]
  · rw [ReflexiveLoop_eq, repeatedRelated_iff]
    by_cases h : (stunKeys sections.flatten).Nodup
    · simp [h]
    · simp [h]
  · rw [ReflexiveLoop_eq, ReflexiveLoop_eq, stunKeys_flatten_filter]
  · intro f
    rw [ReflexiveLoop_eq, ReflexiveLoop_eq, stunKeys_flatten_readdress]

/-! ## Lemmas on runs -/

theorem Run.bind_eq {α β : Type} (x : Run α) (f : α → Run β) : x >>= f = x.andThen f := rfl

theorem Run.pure_eq {α : Type} (a : α) : (pure a : Run α) = ⟨[], .ok a⟩ := rfl

theorem Run.andThen_ok {α β : Type} (x : Run α) (f : α → Run β) (a : α)
    (h : x.result = .ok a) :
    x.andThen f = ⟨x.trace ++ (f a).trace, (f a).result⟩ := by
  unfold Run.andThen
  rw [h]

/-- The shape of `Main` once the options are parsed and `--help` is absent. -/
theorem Main_eq {σ : Type} (env : Env σ) (args : Args)
    (hargs : env.args = .ok args) (hhelp : args.help = false) :
    Main env = (Prepare env args).andThen fun ctx =>
      (ProbeTopology env ctx.origin).andThen fun compatible =>
        if compatible then Serve env args ctx else pure 1 := by
  unfold Main
  simp only [Run.bind_eq]
  rw [Run.andThen_ok (lift env.args) _ args (by simp [Run.lift, hargs])]
  simp [hhelp, Run.lift]

/-- The probe once the offer is made and parsed. -/
theorem ProbeTopology_eq {σ : Type} (env : Env σ) (origin : Option Bytes) (offer : Bytes)
    (jsep : JsepSessionDescription)
    (hoffer : env.Description origin reflectors = .ok offer)
    (hsdp : env.SdpDeserialize offer = some jsep) (hdesc : jsep.description = true) :
    ProbeTopology env origin =
      ⟨[.Description origin reflectors, .cout [], .cout (env.Filter false offer)]
          ++ (ReflexiveLoop jsep).trace, (ReflexiveLoop jsep).result⟩ := by
  unfold ProbeTopology
  simp only [Run.bind_eq]
  simp [Run.andThen, Run.emit, Run.lift, hoffer, hsdp, hdesc, orc_assert_some, orc_assert,
    Run.pure_eq]

/-- C1, counterexample: two "stun" candidates with different related
addresses and one observed address are accepted; the scan prints nothing and
its verdict is `true`. -/
theorem observed_collision_accepted :
    ObservedCollision [stun (sock 1 5000) (sock 9 6000), stun (sock 2 5000) (sock 9 6000)]
    ∧ ReflexiveLoop (sessionOf [[stun (sock 1 5000) (sock 9 6000),
          stun (sock 2 5000) (sock 9 6000)]]) = ⟨[], .ok true⟩ :=
  ⟨⟨0, 1, _, _, by decide, rfl, rfl, rfl, rfl, by decide, rfl⟩, by decide⟩

/-- C1, amended: when the offer's candidates contain two of type "stun" with
the same related address, whatever their observed addresses, the scan prints
the symmetric-NAT message and stops with verdict `false`; `Main`, once it has
reached the probe, prints that message and returns 1, which is the exit status. -/
theorem related_collision_rejected {σ : Type} (env : Env σ) (args : Args) (ctx : Context)
    (offer : Bytes) (sections : List (List Candidate))
    (hargs : env.args = .ok args) (hhelp : args.help = false)
    (hprep : (Prepare env args).result = .ok ctx)
    (hoffer : env.Description ctx.origin reflectors = .ok offer)
    (hsdp : env.SdpDeserialize offer = some (sessionOf sections))
    (hrep : RepeatedRelated sections.flatten) :
    ReflexiveLoop (sessionOf sections) = ⟨[.cerr symmetricMessage], .ok false⟩
    ∧ (Main env).result = .ok 1
    ∧ Event.cerr symmetricMessage ∈ (Main env).trace
    ∧ (main env).status = 1 := by
  have hloop : ReflexiveLoop (sessionOf sections) = ⟨[.cerr symmetricMessage], .ok false⟩ := by
    rw [ReflexiveLoop_eq, if_neg ((repeatedRelated_iff _).mp hrep)]
  have hprobe := ProbeTopology_eq env ctx.origin offer (sessionOf sections) hoffer hsdp rfl
  rw [hloop] at hprobe
  have hmain : (Main env).result = .ok 1
      ∧ Event.cerr symmetricMessage ∈ (Main env).trace := by
    rw [Main_eq env args hargs hhelp, Run.andThen_ok _ _ ctx hprep, hprobe]
    simp [Run.andThen, Run.pure_eq]
  refine ⟨hloop, hmain.1, hmain.2, ?_⟩
  unfold main
  rw [hmain.1]

/-- C1, amended, at a concrete run: two "stun" candidates share the related
address 10.0.0.1:5000 and differ in the observed address. -/
theorem related_collision_rejected_witness :
    RepeatedRelated [stun (sock 1 5000) (sock 9 6000), stun (sock 1 5000) (sock 8 6001)]
    ∧ (main (sampleEnv sampleArgs
        [[stun (sock 1 5000) (sock 9 6000), stun (sock 1 5000) (sock 8 6001)]] none)).status
      = 1 :=
  ⟨⟨0, 1, _, _, by decide, rfl, rfl, rfl, rfl, rfl⟩,
    (related_collision_rejected
      (sampleEnv sampleArgs
        [[stun (sock 1 5000) (sock 9 6000), stun (sock 1 5000) (sock 8 6001)]] none)
      sampleArgs sampleContext (ascii "v=0")
      [[stun (sock 1 5000) (sock 9 6000), stun (sock 1 5000) (sock 8 6001)]]
      rfl rfl (by decide) rfl rfl
      ⟨0, 1, _, _, by decide, rfl, rfl, rfl, rfl, rfl⟩).2.2.2⟩

/-- C2, counterexample: a list whose two "stun" candidates are the same pair
(one related address, one observed address) is one-to-one, and the scan
rejects it. -/
theorem repeated_pair_rejected :
    OneToOne [stun (sock 1 5000) (sock 9 6000), stun (sock 1 5000) (sock 9 6000)]
    ∧ ReflexiveLoop (sessionOf [[stun (sock 1 5000) (sock 9 6000),
          stun (sock 1 5000) (sock 9 6000)]]) = ⟨[.cerr symmetricMessage], .ok false⟩ :=
  ⟨by unfold OneToOne; decide, by decide⟩

/-- C2, amended: when the "stun" candidates pair each related address with one
observed address and each observed address with one related address, and no
such pair occurs twice, the scan falls out of its loops with verdict `true` and
prints nothing, whatever candidates of other types the list holds. -/
theorem one_to_one_accepted (sections : List (List Candidate))
    (hone : OneToOne sections.flatten)
    (hpairs : (stunPairs sections.flatten).Nodup) :
    ReflexiveLoop (sessionOf sections) = ⟨[], .ok true⟩ := by
  rw [ReflexiveLoop_eq, if_pos]
  rw [stunKeys_eq_map_fst]
  refine List.Nodup.map_on ?_ hpairs
  intro x hx y hy hxy
  unfold stunPairs at hx hy
  simp only [List.mem_map, List.mem_filter, decide_eq_true_eq] at hx hy
  obtain ⟨a, ⟨ha, hta⟩, rfl⟩ := hx
  obtain ⟨b, ⟨hb, htb⟩, rfl⟩ := hy
  simp only at hxy
  rw [(hone a ha b hb hta htb).mp hxy, hxy]

/-- C2, amended, at a concrete list: two distinct pairs among host candidates. -/
theorem one_to_one_accepted_witness :
    ReflexiveLoop (sessionOf [[local_ (sock 1 5000), stun (sock 1 5000) (sock 9 6000)],
        [stun (sock 2 5000) (sock 9 6001), local_ (sock 2 5000)]]) = ⟨[], .ok true⟩ :=
  one_to_one_accepted
    [[local_ (sock 1 5000), stun (sock 1 5000) (sock 9 6000)],
      [stun (sock 2 5000) (sock 9 6001), local_ (sock 2 5000)]]
    (by unfold OneToOne; decide) (by decide)

/-! ## The claims on the PKCS#12 import -/

theorem writeStack_eq {σ : Type} (env : Env σ) (xs : List X509) (pems : List Bytes)
    (chain : Bytes) (h : xs.map env.PEM_write_bio_X509 = pems.map some) :
    writeStack env xs chain = ⟨[], .ok (chain ++ pems.flatten)⟩ := by
  induction xs generalizing pems chain with
  | nil =>
    cases pems with
    | nil => simp [writeStack, Run.pure_eq]
    | cons p ps => simp at h
  | cons x xs ih =>
    cases pems with
    | nil => simp at h
    | cons p ps =>
      simp only [List.map_cons, List.cons.injEq] at h
      simp only [writeStack, h.1, orc_assert_some, Run.pure_eq, Run.andThen, List.nil_append]
      rw [ih ps (chain ++ p) h.2]
      simp

/-- C7: when the file is read, the container decodes and opens with a private
key, a leaf certificate `x509` and a stack (absent, empty or not), and every
PEM write succeeds, the import returns the key text and, as chain text, the
leaf's PEM followed by the PEM of each stack certificate in stack order and
nothing else; `Identity` returns the same when `--tls` names the file. -/
theorem import_keeps_chain_order {σ : Type} (env : Env σ) (args : Args) (path str : Bytes)
    (p12 : PKCS12) (pkey : EVP_PKEY) (x509 : X509) (stack : Option (List X509))
    (key leaf : Bytes) (pems : List Bytes)
    (htls : args.tls = some path)
    (hfile : env.load_string_file path = some str)
    (hbio : env.BIO_new_mem_buf str = true)
    (hd2i : env.d2i_PKCS12_bio str = some p12)
    (hparse : env.PKCS12_parse p12 [] = some (some pkey, some x509, stack))
    (hkey : env.PEM_write_bio_PrivateKey pkey = some key)
    (hleaf : env.PEM_write_bio_X509 x509 = some leaf)
    (hstack : (stack.getD []).map env.PEM_write_bio_X509 = pems.map some) :
    ImportIdentity env path = ⟨[], .ok (key, leaf ++ pems.flatten)⟩
    ∧ Identity env args = ⟨[], .ok (key, leaf ++ pems.flatten)⟩ := by
  have himport : ImportIdentity env path = ⟨[], .ok (key, leaf ++ pems.flatten)⟩ := by
    unfold ImportIdentity
    simp only [Run.bind_eq]
    simp [Run.andThen, loaded, orc_assert, orc_assert_some, Run.pure_eq, hfile, hbio, hd2i,
      hparse, hkey, hleaf, writeStack_eq env _ pems leaf hstack]
  refine ⟨himport, ?_⟩
  unfold Identity
  rw [htls]
  exact himport

/-- C7 at a concrete container: a leaf and a stack of two certificates. -/
theorem import_keeps_chain_order_witness :
    ImportIdentity (sampleEnv sampleArgs [] (some (some ⟨1⟩, some ⟨2⟩, some [⟨3⟩, ⟨4⟩])))
        (ascii "node.p12")
      = ⟨[], .ok (ascii "K" ++ [1], (ascii "X" ++ [2]) ++ (ascii "X" ++ [3]) ++ (ascii "X" ++ [4]))⟩ :=
  (import_keeps_chain_order
    (sampleEnv sampleArgs [] (some (some ⟨1⟩, some ⟨2⟩, some [⟨3⟩, ⟨4⟩])))
    { sampleArgs with tls := some (ascii "node.p12") } (ascii "node.p12") (ascii "node.p12")
    ⟨0⟩ ⟨1⟩ ⟨2⟩ (some [⟨3⟩, ⟨4⟩]) (ascii "K" ++ [1]) (ascii "X" ++ [2])
    [ascii "X" ++ [3], ascii "X" ++ [4]]
    rfl rfl rfl rfl rfl rfl rfl rfl).1

theorem import_fails_eq {σ : Type} (env : Env σ) (path : Bytes) (h : ImportFails env path) :
    ∃ line, ImportIdentity env path = ⟨[], .error (.assert line)⟩ := by
  obtain ⟨str, hfile, h⟩ := h
  unfold ImportIdentity
  simp only [Run.bind_eq]
  by_cases hbio : env.BIO_new_mem_buf str = true
  · rcases h with hd2i | ⟨p12, hd2i, h⟩
    · exact ⟨209, by
        simp [Run.andThen, loaded, orc_assert, orc_assert_some, Run.pure_eq, Run.raise, hfile,
          hbio, hd2i]⟩
    · rcases h with hparse | ⟨pkey, x509, stack, hparse, h⟩
      · exact ⟨219, by
          simp [Run.andThen, loaded, orc_assert, orc_assert_some, Run.pure_eq, Run.raise, hfile,
            hbio, hd2i, hparse]⟩
      · cases pkey with
        | none =>
          exact ⟨228, by
            simp [Run.andThen, loaded, orc_assert, orc_assert_some, Run.pure_eq, Run.raise,
              hfile, hbio, hd2i, hparse]⟩
        | some k =>
          have hx : x509 = none := by simpa using h
          subst hx
          exact ⟨229, by
            simp [Run.andThen, loaded, orc_assert, orc_assert_some, Run.pure_eq, Run.raise,
              hfile, hbio, hd2i, hparse]⟩
  · exact ⟨204, by
      simp [Run.andThen, loaded, orc_assert, orc_assert_some, Run.pure_eq, Run.raise, hfile,
        hbio]⟩

/-- When the import fails, `Prepare` stops in or before the identity step. -/
theorem Prepare_import_fails {σ : Type} (env : Env σ) (args : Args) (path : Bytes)
    (htls : args.tls = some path) (h : ImportFails env path) :
    ∃ e, Prepare env args = ⟨[.Initialize], .error e⟩ := by
  obtain ⟨line, himport⟩ := import_fails_eq env path h
  have hid : Identity env args = ⟨[], .error (.assert line)⟩ := by
    unfold Identity
    rw [htls]
    exact himport
  unfold Prepare
  simp only [Run.bind_eq]
  cases hdh : args.dh with
  | none =>
    exact ⟨.assert line, by simp [Run.andThen, Run.emit, Run.pure_eq, hid]⟩
  | some file =>
    cases hload : env.load_string_file file with
    | none =>
      exact ⟨.file file, by simp [Run.andThen, Run.emit, Run.pure_eq, Run.raise, loaded, hload]⟩
    | some params =>
      exact ⟨.assert line, by simp [Run.andThen, Run.emit, Run.pure_eq, loaded, hload, hid]⟩

/-- C8: when `--tls` names a bundle and the import fails (undecodable bytes, a
container that does not open under the passphrase used, no private key, or no
leaf certificate), the import throws from an `orc_assert`, `Main` ends by an
exception, `main` exits with status 1, and the run holds no event of a later
step: no fingerprint, no probe, no chain call, no cashier, egress or node run. -/
theorem import_failure_is_fatal {σ : Type} (env : Env σ) (args : Args) (path : Bytes)
    (hargs : env.args = .ok args) (hhelp : args.help = false)
    (htls : args.tls = some path) (hfail : ImportFails env path) :
    (∃ line, ImportIdentity env path = ⟨[], .error (.assert line)⟩)
    ∧ (∃ e, (Main env).result = .error e)
    ∧ (main env).status = 1
    ∧ ∀ ev ∈ (main env).trace, ev.afterIdentity = false := by
  obtain ⟨e, hprep⟩ := Prepare_import_fails env args path htls hfail
  have hmain : Main env = ⟨[.Initialize], .error e⟩ := by
    rw [Main_eq env args hargs hhelp, hprep]
    rfl
  refine ⟨import_fails_eq env path hfail, ⟨e, by rw [hmain]⟩, ?_, ?_⟩
  · unfold main
    rw [hmain]
  · unfold main
    rw [hmain]
    intro ev hev
    simp at hev
    rcases hev with rfl | rfl | rfl | rfl | rfl <;> rfl

/-- C8 at a concrete run: the container opens without a leaf certificate. -/
theorem import_failure_is_fatal_witness :
    ImportFails (sampleEnv { sampleArgs with tls := some (ascii "node.p12") } []
        (some (some ⟨1⟩, none, none))) (ascii "node.p12")
    ∧ (main (sampleEnv { sampleArgs with tls := some (ascii "node.p12") } []
        (some (some ⟨1⟩, none, none)))).status = 1 :=
  ⟨⟨ascii "node.p12", rfl, Or.inr ⟨⟨0⟩, rfl, Or.inr ⟨some ⟨1⟩, none, none, rfl, Or.inr rfl⟩⟩⟩,
    (import_failure_is_fatal
      (sampleEnv { sampleArgs with tls := some (ascii "node.p12") } []
        (some (some ⟨1⟩, none, none)))
      { sampleArgs with tls := some (ascii "node.p12") } (ascii "node.p12") rfl rfl rfl
      ⟨ascii "node.p12", rfl, Or.inr ⟨⟨0⟩, rfl, Or.inr ⟨some ⟨1⟩, none, none, rfl, Or.inr rfl⟩⟩⟩).2.2.1⟩

/-! ## The claim on the tls token -/

theorem regex_replace_nil (s : Bytes) (c : Nat) :
    regex_replace s c [] = s.filter fun x => x ≠ c := by
  unfold regex_replace
  induction s with
  | nil => rfl
  | cons x xs ih =>
    by_cases hx : x = c
    · simp [List.flatMap_cons, hx, ih]
    · simp [List.flatMap_cons, hx, ih]

theorem c_str_of_no_nul (s : Bytes) (h : 0 ∉ s) : c_str s = s := by
  unfold c_str
  rw [List.takeWhile_eq_self_iff]
  intro x hx
  have : x ≠ 0 := fun h0 => h (h0 ▸ hx)
  simpa using this

theorem c_str_no_nul (s : Bytes) : 0 ∉ c_str s := by
  unfold c_str
  intro h
  have := List.mem_takeWhile_imp h
  simp at this

theorem c_str_subset (s : Bytes) (x : Nat) (h : x ∈ c_str s) : x ∈ s :=
  List.IsPrefix.subset ( List.takeWhile_prefix _) h

/-- C9: for every fingerprint whose algorithm name is a C string (no NUL
inside, as the digest names are), whatever bytes the buffer type `Object` makes
of a C string, the tls token is `Object` of the name with every '-' removed and
all other characters kept in their order, followed by the digest bytes
unchanged; the name handed to `Object` holds no '-', normalizing it again
changes nothing, and "sha-256" becomes "sha256". -/
theorem tls_token_normalized (Object : Bytes → Bytes) (algorithm digest : Bytes)
    (hname : 0 ∉ algorithm) :
    tlsToken Object algorithm digest
        = Object (algorithm.filter fun c => c ≠ '-'.toNat) ++ digest
    ∧ tlsAlgorithm algorithm = algorithm.filter (fun c => c ≠ '-'.toNat)
    ∧ '-'.toNat ∉ tlsAlgorithm algorithm
    ∧ tlsAlgorithm (tlsAlgorithm algorithm) = tlsAlgorithm algorithm
    ∧ tlsAlgorithm (ascii "sha-256") = ascii "sha256" := by
  have hfil : ∀ s : Bytes, tlsAlgorithm s = c_str (s.filter fun c => c ≠ '-'.toNat) := by
    intro s
    unfold tlsAlgorithm re
    rw [regex_replace_nil]
  have halg : tlsAlgorithm algorithm = algorithm.filter (fun c => c ≠ '-'.toNat) := by
    rw [hfil, c_str_of_no_nul]
    intro hm
    exact hname (List.mem_of_mem_filter hm)
  have hdash : '-'.toNat ∉ tlsAlgorithm algorithm := by
    rw [hfil]
    intro h
    have := c_str_subset _ _ h
    simp at this
  refine ⟨?_, halg, hdash, ?_, by decide⟩
  · unfold tlsToken Subset
    rw [halg, List.take_length, List.nil_append]
  · rw [hfil (tlsAlgorithm algorithm)]
    rw [List.filter_eq_self.mpr (fun x hx => by
      have : x ≠ '-'.toNat := fun h => hdash (h ▸ hx)
      simpa using this)]
    exact c_str_of_no_nul _ (by rw [hfil]; exact c_str_no_nul _)

/-- C9 at the fingerprint ("sha-256", 1 2 3), with an `Object` that holds the
characters of its C string. -/
theorem tls_token_normalized_witness :
    0 ∉ ascii "sha-256"
    ∧ tlsToken (fun name => name) (ascii "sha-256") [1, 2, 3] = ascii "sha256" ++ [1, 2, 3] :=
  ⟨by decide,
    (tls_token_normalized (fun name => name) (ascii "sha-256") [1, 2, 3] (by decide)).1⟩

/-! ## The claims on the reconciliation -/

theorem Reconcile_eq {σ : Type} (endpoint : Endpoint σ) (chain : σ)
    (location provider password url tls aux : Bytes) (latest : Nat)
    (record : Nat × Bytes × Bytes × Bytes)
    (hlatest : endpoint.Latest chain = .ok latest)
    (hlook : endpoint.look chain latest location 90000 provider = .ok record) :
    Reconcile endpoint chain location provider password url tls aux =
      if record.2 = (url, tls, aux) then
        ⟨[.Latest, .look latest location 90000 provider], .ok chain⟩
      else
        ⟨[.Latest, .look latest location 90000 provider,
            .move provider password location 3000000 url tls []],
          endpoint.move chain provider password location 3000000 url tls []⟩ := by
  unfold Reconcile
  simp only [Run.bind_eq]
  by_cases h : record.2 = (url, tls, aux)
  · simp [Run.andThen, Run.emit, Run.lift, Run.pure_eq, hlatest, hlook, h]
  · simp [Run.andThen, Run.emit, Run.lift, Run.pure_eq, hlatest, hlook, h]

/-- C3: when `look` returns a record whose url, tls token and auxiliary key
equal the desired ones field by field, the reconciliation issues no `move` and
ends after the two reads with the ledger untouched; and whenever it does issue
a `move`, some field of the record differs from the desired one. -/
theorem reconcile_noop_on_match {σ : Type} (endpoint : Endpoint σ) (chain : σ)
    (location provider password url tls aux : Bytes) (latest stamp : Nat)
    (u t g : Bytes)
    (hlatest : endpoint.Latest chain = .ok latest)
    (hlook : endpoint.look chain latest location 90000 provider = .ok (stamp, u, t, g)) :
    (u = url ∧ t = tls ∧ g = aux →
        Reconcile endpoint chain location provider password url tls aux
          = ⟨[.Latest, .look latest location 90000 provider], .ok chain⟩
        ∧ writes (Reconcile endpoint chain location provider password url tls aux).trace = [])
    ∧ (writes (Reconcile endpoint chain location provider password url tls aux).trace ≠ [] →
        u ≠ url ∨ t ≠ tls ∨ g ≠ aux) := by
  have h := Reconcile_eq endpoint chain location provider password url tls aux latest
    (stamp, u, t, g) hlatest hlook
  constructor
  · rintro ⟨rfl, rfl, rfl⟩
    rw [h]
    simp [writes]
  · intro hw
    by_contra hne
    push_neg at hne
    obtain ⟨rfl, rfl, rfl⟩ := hne
    rw [h] at hw
    simp [writes] at hw

/-- C3 at a concrete registry: the provider's record is already the desired one. -/
theorem reconcile_noop_on_match_witness :
    registry.look (publishedRegistry [1] [2] [3] [4]) 7 [1] 90000 [2] = .ok (5, [3], [4], [])
    ∧ writes (Reconcile registry (publishedRegistry [1] [2] [3] [4]) [1] [2] [9] [3] [4]
      gpg).trace = [] :=
  ⟨rfl, ((reconcile_noop_on_match registry (publishedRegistry [1] [2] [3] [4]) [1] [2] [9] [3]
    [4] gpg 7 5 [3] [4] [] rfl rfl).1 ⟨rfl, rfl, rfl⟩).2⟩

/-- C4: when `look` returns a record that differs from the desired tuple in at
least one of url, tls token and auxiliary key, the reconciliation issues exactly
one `move`, after the two reads, whose payload is the desired url, the desired
tls token and the desired auxiliary key, which is empty; whether the chain then
accepts it decides the result. -/
theorem reconcile_single_full_update {σ : Type} (endpoint : Endpoint σ) (chain : σ)
    (location provider password url tls : Bytes) (latest stamp : Nat) (u t g : Bytes)
    (hlatest : endpoint.Latest chain = .ok latest)
    (hlook : endpoint.look chain latest location 90000 provider = .ok (stamp, u, t, g))
    (hdiff : u ≠ url ∨ t ≠ tls ∨ g ≠ gpg) :
    writes (Reconcile endpoint chain location provider password url tls gpg).trace
        = [.move provider password location 3000000 url tls gpg]
    ∧ gpg = []
    ∧ Reconcile endpoint chain location provider password url tls gpg
        = ⟨[.Latest, .look latest location 90000 provider,
              .move provider password location 3000000 url tls gpg],
            endpoint.move chain provider password location 3000000 url tls gpg⟩ := by
  have h := Reconcile_eq endpoint chain location provider password url tls gpg latest
    (stamp, u, t, g) hlatest hlook
  have hne : ¬ (u, t, g) = (url, tls, gpg) := by
    intro heq
    simp only [Prod.mk.injEq] at heq
    rcases hdiff with hd | hd | hd
    · exact hd heq.1
    · exact hd heq.2.1
    · exact hd heq.2.2
  rw [if_neg hne] at h
  refine ⟨?_, rfl, ?_⟩
  · rw [h]
    simp [writes, gpg]
  · rw [h]
    rfl

/-- C4 at a concrete registry: only the url of the stored record is stale. -/
theorem reconcile_single_full_update_witness :
    registry.look (publishedRegistry [1] [2] [8] [4]) 7 [1] 90000 [2] = .ok (5, [8], [4], [])
    ∧ writes (Reconcile registry (publishedRegistry [1] [2] [8] [4]) [1] [2] [9] [3] [4]
      gpg).trace = [.move [2] [9] [1] 3000000 [3] [4] []] :=
  ⟨rfl, (reconcile_single_full_update registry (publishedRegistry [1] [2] [8] [4]) [1] [2] [9]
    [3] [4] 7 5 [8] [4] [] rfl rfl (Or.inl (by decide))).1⟩

/-- C5, counterexample: when the stored record already equals the desired
tuple, two reconciliations in sequence issue no write at all, not one. -/
theorem published_record_needs_no_write :
    writes (ReconcileTwice registry (publishedRegistry [1] [2] [3] [4]) [1] [2] [9] [3] [4]
      gpg).trace = []
    ∧ (writes (ReconcileTwice registry (publishedRegistry [1] [2] [3] [4]) [1] [2] [9] [3] [4]
      gpg).trace).length ≠ 1 := by
  decide

/-- C5, amended: over the registry model, for every initial ledger and every
desired url and tls token (with the empty auxiliary key), both reconciliations
return, the second one reads a record equal to the desired tuple and issues no
write, and the two together issue one write when the initial record differs
from the desired tuple and none when it already equals it, so never more than
one. -/
theorem reconcile_twice_writes_at_most_once (s : Registry)
    (location provider password url tls : Bytes) :
    ∃ s1 s2,
      (Reconcile registry s location provider password url tls gpg).result = .ok s1
      ∧ (Reconcile registry s1 location provider password url tls gpg).result = .ok s2
      ∧ registry.look s1 s1.height location 90000 provider
          = .ok ((s1.record location provider).1, url, tls, gpg)
      ∧ writes (Reconcile registry s1 location provider password url tls gpg).trace = []
      ∧ (writes (ReconcileTwice registry s location provider password url tls gpg).trace).length
          = (if (s.record location provider).2 = (url, tls, gpg) then 0 else 1)
      ∧ (writes (ReconcileTwice registry s location provider password url tls gpg).trace).length
          ≤ 1 := by
  have hrun : ∀ c : Registry, Reconcile registry c location provider password url tls gpg =
      if (c.record location provider).2 = (url, tls, gpg) then
        ⟨[.Latest, .look c.height location 90000 provider], .ok c⟩
      else
        ⟨[.Latest, .look c.height location 90000 provider,
            .move provider password location 3000000 url tls []],
          registry.move c provider password location 3000000 url tls []⟩ :=
    fun c => Reconcile_eq registry c location provider password url tls gpg c.height
      (c.record location provider) rfl rfl
  by_cases h : (s.record location provider).2 = (url, tls, gpg)
  · have h1 := hrun s
    rw [if_pos h] at h1
    refine ⟨s, s, by rw [h1], by rw [h1], ?_, by rw [h1]; simp [writes], ?_, ?_⟩
    · simp only [registry]
      rw [← h]
    · unfold ReconcileTwice
      rw [Run.andThen_ok _ _ s (by rw [h1]), h1, if_pos h]
      simp [writes]
    · unfold ReconcileTwice
      rw [Run.andThen_ok _ _ s (by rw [h1]), h1]
      simp [writes]
  · have h1 := hrun s
    rw [if_neg h] at h1
    obtain ⟨s1, hs1, hrec⟩ : ∃ s1, registry.move s provider password location 3000000 url tls []
        = .ok s1 ∧ s1.record location provider = (s.height + 1, url, tls, gpg) :=
      ⟨_, rfl, by simp [gpg]⟩
    have h2 := hrun s1
    rw [if_pos (by rw [hrec])] at h2
    rw [hs1] at h1
    refine ⟨s1, s1, by rw [h1], by rw [h2], ?_, by rw [h2]; simp [writes], ?_, ?_⟩
    · simp only [registry]
      rw [hrec]
    · unfold ReconcileTwice
      rw [Run.andThen_ok _ _ s1 (by rw [h1]), h1, h2, if_neg h]
      simp [writes]
    · unfold ReconcileTwice
      rw [Run.andThen_ok _ _ s1 (by rw [h1]), h1, h2]
      simp [writes]

/-! ## The claim on the probe as a gate -/

theorem quiet_pure {α : Type} (a : α) : Quiet (pure a : Run α) := by
  intro e he
  simp [Run.pure_eq] at he

theorem quiet_raise {α : Type} (err : Error) : Quiet (raise err : Run α) := by
  intro e he
  simp [Run.raise] at he

theorem quiet_lift {α : Type} (r : Except Error α) : Quiet (lift r) := by
  intro e he
  simp [Run.lift] at he

theorem quiet_emit (ev : Event) (h : ev.afterProbe = false) : Quiet (emit ev) := by
  intro e he
  simp [Run.emit] at he
  rw [he]
  exact h

theorem quiet_andThen {α β : Type} (x : Run α) (f : α → Run β) (hx : Quiet x)
    (hf : ∀ a, Quiet (f a)) : Quiet (x.andThen f) := by
  intro e he
  unfold Run.andThen at he
  cases hr : x.result with
  | ok a =>
    rw [hr] at he
    simp only [List.mem_append] at he
    rcases he with he | he
    · exact hx e he
    · exact hf a e he
  | error err =>
    rw [hr] at he
    exact hx e he

theorem quiet_orc_assert (line : Nat) (cond : Bool) : Quiet (orc_assert line cond) := by
  unfold orc_assert
  split
  · exact quiet_pure _
  · exact quiet_raise _

theorem quiet_orc_assert_some {α : Type} (line : Nat) (p : Option α) :
    Quiet (orc_assert_some line p) := by
  unfold orc_assert_some
  split
  · exact quiet_pure _
  · exact quiet_raise _

theorem quiet_loaded (path : Bytes) (contents : Option Bytes) : Quiet (loaded path contents) := by
  unfold loaded
  split
  · exact quiet_pure _
  · exact quiet_raise _

theorem quiet_writeStack {σ : Type} (env : Env σ) (xs : List X509) (chain : Bytes) :
    Quiet (writeStack env xs chain) := by
  induction xs generalizing chain with
  | nil => exact quiet_pure _
  | cons x xs ih =>
    unfold writeStack
    exact quiet_andThen _ _ (quiet_orc_assert_some _ _) fun _ => ih _

theorem quiet_ImportIdentity {σ : Type} (env : Env σ) (path : Bytes) :
    Quiet (ImportIdentity env path) := by
  unfold ImportIdentity
  simp only [Run.bind_eq]
  refine quiet_andThen _ _ (quiet_loaded _ _) fun _ => ?_
  refine quiet_andThen _ _ (quiet_orc_assert _ _) fun _ => ?_
  refine quiet_andThen _ _ (quiet_orc_assert_some _ _) fun _ => ?_
  refine quiet_andThen _ _ (quiet_orc_assert_some _ _) fun _ => ?_
  refine quiet_andThen _ _ (quiet_orc_assert_some _ _) fun _ => ?_
  refine quiet_andThen _ _ (quiet_orc_assert_some _ _) fun _ => ?_
  refine quiet_andThen _ _ (quiet_orc_assert_some _ _) fun _ => ?_
  refine quiet_andThen _ _ (quiet_orc_assert_some _ _) fun _ => ?_
  refine quiet_andThen _ _ (quiet_writeStack _ _ _) fun _ => ?_
  exact quiet_pure _

theorem quiet_Identity {σ : Type} (env : Env σ) (args : Args) : Quiet (Identity env args) := by
  unfold Identity
  split
  · simp only [Run.bind_eq]
    refine quiet_andThen _ _ (quiet_emit _ rfl) fun _ => ?_
    refine quiet_andThen _ _ (quiet_emit _ rfl) fun _ => ?_
    refine quiet_andThen _ _ (quiet_emit _ rfl) fun _ => ?_
    exact quiet_pure _
  · exact quiet_ImportIdentity _ _

theorem quiet_Prepare {σ : Type} (env : Env σ) (args : Args) : Quiet (Prepare env args) := by
  have hrest : ∀ (x : Run Bytes), Quiet x → ∀ f : Bytes → Bytes × Bytes → Context,
      Quiet (x.andThen fun y =>
        (Identity env args).andThen fun identity =>
          (emit (Event.Fingerprint identity.1 identity.2)).andThen fun _ =>
            (emit (Event.dump (ascii "url")
              (serviceUrl
                (match args.host with
                | some host => host
                | none => env.host_name)
                args.port args.path))).andThen fun _ =>
              (emit (Event.dump (ascii "tls")
                (tlsToken env.Object (env.fingerprint identity.1 identity.2).1
                  (env.fingerprint identity.1 identity.2).2))).andThen fun _ =>
                (emit (Event.dump (ascii "gpg") gpg)).andThen fun _ =>
                  pure (f y identity)) := by
    intro x hx f
    refine quiet_andThen _ _ hx fun _ => ?_
    refine quiet_andThen _ _ (quiet_Identity _ _) fun _ => ?_
    refine quiet_andThen _ _ (quiet_emit _ rfl) fun _ => ?_
    refine quiet_andThen _ _ (quiet_emit _ rfl) fun _ => ?_
    refine quiet_andThen _ _ (quiet_emit _ rfl) fun _ => ?_
    refine quiet_andThen _ _ (quiet_emit _ rfl) fun _ => ?_
    exact quiet_pure _
  unfold Prepare
  simp only [Run.bind_eq]
  refine quiet_andThen _ _ (quiet_emit _ rfl) fun _ => ?_
  split
  · exact hrest _ (quiet_pure _) _
  · exact hrest _ (quiet_loaded _ _) _

theorem quiet_scanCollection (cs : List (Option Candidate)) (r : Reflexive) :
    Quiet (scanCollection cs r) := by
  induction cs generalizing r with
  | nil => exact quiet_pure _
  | cons ice rest ih =>
    unfold scanCollection
    split
    · exact quiet_raise _
    · split
      · exact ih _
      · split
        · exact ih _
        · intro e he
          simp at he
          rw [he]
          rfl

theorem quiet_scanSections (secs : List (List (Option Candidate))) (r : Reflexive) :
    Quiet (scanSections secs r) := by
  induction secs generalizing r with
  | nil => exact quiet_pure _
  | cons ices rest ih =>
    unfold scanSections
    refine quiet_andThen _ _ (quiet_scanCollection _ _) fun o => ?_
    cases o with
    | none => exact quiet_pure _
    | some r1 => exact ih r1

theorem quiet_ProbeTopology {σ : Type} (env : Env σ) (origin : Option Bytes) :
    Quiet (ProbeTopology env origin) := by
  unfold ProbeTopology ReflexiveLoop
  simp only [Run.bind_eq]
  refine quiet_andThen _ _ (quiet_emit _ rfl) fun _ => ?_
  refine quiet_andThen _ _ (quiet_lift _) fun _ => ?_
  refine quiet_andThen _ _ (quiet_emit _ rfl) fun _ => ?_
  refine quiet_andThen _ _ (quiet_emit _ rfl) fun _ => ?_
  refine quiet_andThen _ _ (quiet_orc_assert_some _ _) fun _ => ?_
  refine quiet_andThen _ _ (quiet_orc_assert _ _) fun _ => ?_
  refine quiet_andThen _ _ (quiet_scanSections _ _) fun _ => ?_
  exact quiet_pure _

/-- C6: on every run that reaches the probe and on which the probe's verdict
is incompatible, `Main` returns 1, which is the exit status of `main`; the run
consists of the preparation and the probe and nothing after them, and none of
its events is a chain call (`Latest`, `look`, `move`), the construction or
opening of the cashier, the egress connection, or the node run-loop. -/
theorem incompatible_topology_gates {σ : Type} (env : Env σ) (args : Args) (ctx : Context)
    (hargs : env.args = .ok args) (hhelp : args.help = false)
    (hprep : (Prepare env args).result = .ok ctx)
    (hprobe : (ProbeTopology env ctx.origin).result = .ok false) :
    Main env = ⟨(Prepare env args).trace ++ (ProbeTopology env ctx.origin).trace, .ok 1⟩
    ∧ (main env).status = 1
    ∧ ∀ e ∈ (main env).trace, e.afterProbe = false := by
  have hmain : Main env
      = ⟨(Prepare env args).trace ++ (ProbeTopology env ctx.origin).trace, .ok 1⟩ := by
    rw [Main_eq env args hargs hhelp, Run.andThen_ok _ _ ctx hprep,
      Run.andThen_ok _ _ false hprobe]
    simp [Run.pure_eq]
  refine ⟨hmain, ?_, ?_⟩
  · unfold main
    rw [hmain]
  · unfold main
    rw [hmain]
    intro e he
    simp only [List.mem_append, List.mem_cons, List.mem_singleton, List.not_mem_nil,
      or_false] at he
    rcases he with (rfl | he | he) | rfl | rfl
    · rfl
    · exact quiet_Prepare env args e he
    · exact quiet_ProbeTopology env ctx.origin e he
    · rfl
    · rfl

/-- C6 at a concrete run: the offer has two "stun" candidates with one related
address, and the options ask for reconciliation, a cashier and an egress. -/
theorem incompatible_topology_gates_witness :
    (ProbeTopology (sampleEnv sampleArgs
        [[stun (sock 1 5000) (sock 9 6000)], [stun (sock 1 5000) (sock 8 6001)]] none)
      none).result = .ok false
    ∧ (main (sampleEnv sampleArgs
        [[stun (sock 1 5000) (sock 9 6000)], [stun (sock 1 5000) (sock 8 6001)]] none)).status
      = 1 :=
  ⟨by decide,
    (incompatible_topology_gates
      (sampleEnv sampleArgs
        [[stun (sock 1 5000) (sock 9 6000)], [stun (sock 1 5000) (sock 8 6001)]] none)
      sampleArgs sampleContext rfl rfl (by decide) (by decide)).2.1⟩

end orc
